import Mathlib

set_option maxRecDepth 100000

/-!
Verification of the schnetpack_OOD repository.  The file embeds the two
source files shallowly: the atom-exclusion transform of
`src/schnetpack/exclusion_transformer.py` becomes a pure function on batch
mappings, and the control flow of the `train` entry point of
`src/schnetpack/cli.py` becomes a gate function over an abstract working
directory together with a concrete trace of the operations the body performs
after the gate.  Theorems about these embeddings settle the claims about the
repository's behaviour.
-/

/-! ## Atom exclusion transform (exclusion_transformer.py) -/

/-- Key of the atomic-numbers tensor inside a batch mapping: the constant
`schnetpack.properties.Z` (imported as `structure` in the source), whose value
in schnetpack is the string below. -/
def propertiesZ : String := "_atomic_numbers"

/-- Embedding of the `ExclusionTransformer` object.  The Python constructor is
`__init__(self, excluded_atoms: list = None)`: an absent list is `none`, and a
present list may hold integers or `None` entries, modelled as `Option Int`. -/
structure ExclusionTransformer where
  excluded_atoms : Option (List (Option Int)) := none
  deriving DecidableEq

/-- One iteration of the loop body of `forward` acting on the atomic-numbers
tensor: a falsy entry (`None` or `0`) is skipped; otherwise, when the value
occurs in the tensor, every matching position is set to `0`. -/
def excludeStep (zs : List Int) (a : Option Int) : List Int :=
  match a with
  | none => zs
  | some v =>
    if v ≠ 0 then
      if v ∈ zs then zs.map (fun x => if x = v then 0 else x) else zs
    else zs

/-- The whole loop of `forward` over the batch mapping: every iteration
rewrites only the atomic-numbers entry, exactly as
`inputs[structure.Z][inputs[structure.Z] == excluded_atom] = 0` does. -/
def applyExclusions (l : List (Option Int)) (inputs : String → List Int) :
    String → List Int :=
  l.foldl
    (fun acc a => Function.update acc propertiesZ (excludeStep (acc propertiesZ) a))
    inputs

/-- Embedding of `ExclusionTransformer.forward`.  Iterating over a `None`
exclusion list raises `TypeError` in Python, modelled as `Except.error`;
otherwise the mutated mapping is returned. -/
def ExclusionTransformer.forward (t : ExclusionTransformer)
    (inputs : String → List Int) : Except String (String → List Int) :=
  match t.excluded_atoms with
  | none => Except.error ("TypeError: argument of type NoneType is not iterable")
  | some l => Except.ok (applyExclusions l inputs)

/-- The loop of `forward` restricted to the atomic-numbers tensor itself. -/
def excludeAll (l : List (Option Int)) (zs : List Int) : List Int :=
  l.foldl excludeStep zs

/-- Concrete batch used to exercise the transform: the atomic-numbers tensor is
`[7, 6, 7, 1]` and every other key holds the tensor `[11, 12]`. -/
def exampleBatch : String → List Int :=
  fun k => if k = propertiesZ then [7, 6, 7, 1] else [11, 12]

/-! ## Training entry point (cli.py) -/

/-- Abstraction of the merged hydra configuration, keeping just the fields the
gate of `train` inspects: whether `run.data_dir` is missing, whether the
`data` and `model` sections are present, and `run.ckpt_path`. -/
structure RunConfig where
  dataDirMissing : Bool
  hasData : Bool
  hasModel : Bool
  ckptPath : Option String
  deriving DecidableEq

/-- Abstraction of the working directory `train` runs in: the parsed content
of `config.yaml` when that file exists, the existing archive files
`config.old.<n>.yaml` as pairs of index and content, and whether the file
`checkpoints/last.ckpt` exists. -/
structure WorkDir where
  configYaml : Option RunConfig
  archives : List (Nat × RunConfig)
  lastCkptExists : Bool
  deriving DecidableEq

/-- Largest index among the existing archive files (`0` when there are none). -/
def maxArchive (l : List Nat) : Nat := l.foldr max 0

/-- Fuelled version of the `while os.path.exists(f"config.old.<count>.yaml")`
loop of cli.py: starting from `n`, return the first index not already used. -/
def nextFreeAux (archives : List Nat) : Nat → Nat → Nat
  | 0, n => n
  | fuel + 1, n => if n ∈ archives then nextFreeAux archives fuel (n + 1) else n

/-- Index chosen for the new archive file: the loop starts at `count = 1` and
stops at the first free index; `maxArchive + 1` steps of fuel always suffice
because the index `maxArchive + 1` is never occupied. -/
def nextFree (archives : List Nat) : Nat :=
  nextFreeAux archives (maxArchive archives + 1) 1

/-- Embedding of the configuration gate and resume bookkeeping of `train`
(cli.py lines 48-89).  A result `(wd, none)` models an early `return` that
left the working directory untouched; `(wd', some cfg')` models falling
through to the rest of the routine, with the working directory as mutated and
the configuration as possibly updated by checkpoint resolution.  When
`config.yaml` exists its previous content is archived under the next free
index and `config.yaml` itself is not rewritten; when it does not exist the
current configuration is written to it. -/
def trainGate (cfg : RunConfig) (wd : WorkDir) : WorkDir × Option RunConfig :=
  if cfg.dataDirMissing then (wd, none)
  else if !(cfg.hasModel && cfg.hasData) then (wd, none)
  else
    match wd.configYaml with
    | some old =>
      let n := nextFree (wd.archives.map Prod.fst)
      let wd' : WorkDir := { wd with archives := (n, old) :: wd.archives }
      let cfg' : RunConfig :=
        if cfg.ckptPath.isNone && wd.lastCkptExists then
          { cfg with ckptPath := some ("checkpoints/last.ckpt") }
        else cfg
      (wd', some cfg')
    | none => ({ wd with configYaml := some cfg }, some cfg)

/-- Events of the body of `train` after the configuration gate, in source
order.  Pure logging, seeding and config printing are omitted; all operations
that touch the data module, the model, the trainer or the filesystem appear. -/
inductive TrainEv where
  | makeDataDir
  | instantiateDatamodule
  | instantiateModelFromConfig
  | loadPretrainedModel (path : String)
  | instantiateTask
  | instantiateCallbacks
  | instantiateLoggers
  | instantiateTrainer
  | fitPass
  | setSplitFile (path : String)
  | loadSplitFile (path : String)
  | setNumTrain (path : String)
  | setNumTest (path : String)
  | setNumVal (path : String)
  | testPass (path : String)
  | exportTaskArtifact
  | exportModelArtifact
  deriving DecidableEq

/-- Directory holding the split files named literally in cli.py. -/
def splitFilesDir : String :=
  "/home/gulsum/Documents/Surrogates/schnetpack/src/schnetpack/splits/split_files/"

/-- Split file of the first sweep entry (the f-string of line 184 with
`train_perc = 100`). -/
def splitPath100 : String :=
  splitFilesDir ++ "split_train_100_perc_of_nitrogen_100_perc_of_remaining_test_100_perc_of_nitrogen_100_perc_of_remaining.npz"

/-- Split file of the 80% nitrogen test pass (line 204). -/
def splitPath80 : String :=
  splitFilesDir ++ "split_train_100_perc_of_nitrogen_100_perc_of_remaining_test_80_perc_of_nitrogen_100_perc_of_remaining.npz"

/-- Split file of the 60% nitrogen test pass (line 218). -/
def splitPath60 : String :=
  splitFilesDir ++ "split_train_100_perc_of_nitrogen_100_perc_of_remaining_test_60_perc_of_nitrogen_100_perc_of_remaining.npz"

/-- Split file of the 40% nitrogen test pass (line 232). -/
def splitPath40 : String :=
  splitFilesDir ++ "split_train_100_perc_of_nitrogen_100_perc_of_remaining_test_40_perc_of_nitrogen_100_perc_of_remaining.npz"

/-- Split file of the 20% nitrogen test pass (line 247). -/
def splitPath20 : String :=
  splitFilesDir ++ "split_train_100_perc_of_nitrogen_100_perc_of_remaining_test_20_perc_of_nitrogen_100_perc_of_remaining.npz"

/-- Split file of the 0% nitrogen test pass (line 262). -/
def splitPath0 : String :=
  splitFilesDir ++ "split_train_100_perc_of_nitrogen_100_perc_of_remaining_test_0_perc_of_nitrogen_100_perc_of_remaining.npz"

/-- Split file of the nitrogen-only test pass (line 277). -/
def splitPathOnlyN : String :=
  splitFilesDir ++ "split_train_100_perc_of_nitrogen_100_perc_of_remaining_test_100_perc_of_nitrogen_0_perc_of_remaining.npz"

/-- The seven split files the evaluation sweep walks through, in source order. -/
def splitPaths : List String :=
  [splitPath100, splitPath80, splitPath60, splitPath40, splitPath20,
   splitPath0, splitPathOnlyN]

/-- Fixed path the model is loaded from at line 129 of cli.py. -/
def pretrainedModelPath : String :=
  "/home/gulsum/Documents/Surrogates/schnetpack/src/runs/Train100/best_model"

/-- The sequence of state-affecting operations cli.py lines 107-331 performs,
in source order.  The call `hydra.utils.instantiate(config.model)` at line 128
and the call `trainer.fit(...)` at line 193 are commented out in the source
and therefore absent from the trace. -/
def trainTrace : List TrainEv :=
  [TrainEv.makeDataDir,
   TrainEv.instantiateDatamodule,
   TrainEv.loadPretrainedModel pretrainedModelPath,
   TrainEv.instantiateTask,
   TrainEv.instantiateCallbacks,
   TrainEv.instantiateLoggers,
   TrainEv.instantiateTrainer,
   TrainEv.setSplitFile splitPath100,
   TrainEv.loadSplitFile splitPath100,
   TrainEv.setNumTrain splitPath100,
   TrainEv.setNumTest splitPath100,
   TrainEv.setNumVal splitPath100,
   TrainEv.testPass splitPath100,
   TrainEv.setSplitFile splitPath80,
   TrainEv.loadSplitFile splitPath80,
   TrainEv.setNumTrain splitPath80,
   TrainEv.setNumTest splitPath80,
   TrainEv.setNumVal splitPath80,
   TrainEv.testPass splitPath80,
   TrainEv.setSplitFile splitPath60,
   TrainEv.loadSplitFile splitPath60,
   TrainEv.setNumTrain splitPath60,
   TrainEv.setNumTest splitPath60,
   TrainEv.setNumVal splitPath60,
   TrainEv.testPass splitPath60,
   TrainEv.setSplitFile splitPath40,
   TrainEv.loadSplitFile splitPath40,
   TrainEv.setNumTrain splitPath40,
   TrainEv.setNumTest splitPath40,
   TrainEv.setNumVal splitPath40,
   TrainEv.testPass splitPath40,
   TrainEv.setSplitFile splitPath20,
   TrainEv.loadSplitFile splitPath20,
   TrainEv.setNumTrain splitPath20,
   TrainEv.setNumTest splitPath20,
   TrainEv.setNumVal splitPath20,
   TrainEv.testPass splitPath20,
   TrainEv.setSplitFile splitPath0,
   TrainEv.loadSplitFile splitPath0,
   TrainEv.setNumTrain splitPath0,
   TrainEv.setNumTest splitPath0,
   TrainEv.setNumVal splitPath0,
   TrainEv.testPass splitPath0,
   TrainEv.setSplitFile splitPathOnlyN,
   TrainEv.loadSplitFile splitPathOnlyN,
   TrainEv.setNumTrain splitPathOnlyN,
   TrainEv.setNumTest splitPathOnlyN,
   TrainEv.setNumVal splitPathOnlyN,
   TrainEv.testPass splitPathOnlyN,
   TrainEv.exportTaskArtifact,
   TrainEv.exportModelArtifact]

/-- Index of the first occurrence of an event in the trace
(`trainTrace.length` when the event is absent). -/
def evIdx (e : TrainEv) : Nat := trainTrace.findIdx (fun x => decide (x = e))

/-- Result of the best-model export: either the run aborted before writing
anything, or the listed artifact paths were written, in order. -/
inductive ExportResult where
  | aborted
  | written (artifacts : List String)
  deriving DecidableEq

/-- Embedding of the best-model export (cli.py lines 322-331): read
`trainer.checkpoint_callback.best_model_path` (`none` when it cannot be
resolved), reload the checkpoint from it (`loadOk` says whether
`load_from_checkpoint` succeeds; a failure raises and aborts the run), and
only then write the task snapshot at `modelPath + ".task"` followed by the
deployed model at `modelPath`. -/
def exportBestModel (bestPath : Option String) (loadOk : String → Bool)
    (modelPath : String) : ExportResult :=
  match bestPath with
  | none => ExportResult.aborted
  | some bp =>
    if loadOk bp then
      ExportResult.written [modelPath ++ ".task", modelPath]
    else ExportResult.aborted

/-- Complete configuration with no explicit checkpoint path. -/
def cfgComplete : RunConfig := ⟨false, true, true, none⟩

/-- Configuration whose `model` section is absent. -/
def cfgIncomplete : RunConfig := ⟨false, true, false, none⟩

/-- Configuration of a previous run, as stored in `config.yaml`. -/
def oldCfg : RunConfig := ⟨false, true, true, some ("prev")⟩

/-- Fresh working directory with no files in it. -/
def wdEmpty : WorkDir := ⟨none, [], false⟩

/-- Working directory with a `config.yaml`, an archive `config.old.2.yaml`
(and no `config.old.1.yaml`), and no last checkpoint. -/
def wdResume : WorkDir := ⟨some oldCfg, [(2, oldCfg)], false⟩

/-- Working directory with a `config.yaml`, no archives, and an existing
`checkpoints/last.ckpt`. -/
def wdResumeCkpt : WorkDir := ⟨some oldCfg, [], true⟩

/-! ## Lemmas about the exclusion transform -/

/-- The loop over the exclusion list zeroes exactly the tensor entries that
equal some truthy (non-`None`, non-zero) excluded value. -/
theorem excludeAll_eq_map (l : List (Option Int)) (zs : List Int) :
    excludeAll l zs = zs.map (fun x => if some x ∈ l ∧ x ≠ 0 then 0 else x) := by
  induction l generalizing zs with
  | nil =>
    simp [excludeAll]
  | cons a rest ih =>
    rw [(show excludeAll (a :: rest) zs = excludeAll rest (excludeStep zs a) from rfl),
      ih]
    cases a with
    | none =>
      rw [(show excludeStep zs none = zs from rfl)]
      apply List.map_congr_left
      intro x hx
      simp [List.mem_cons]
    | some v =>
      by_cases hv : v = (0 : Int)
      · subst hv
        rw [(show excludeStep zs (some 0) = zs by simp [excludeStep])]
        apply List.map_congr_left
        intro x hx
        by_cases hx0 : x = (0 : Int)
        · subst hx0; simp
        · simp [List.mem_cons, hx0]
      · by_cases hm : v ∈ zs
        · rw [(show excludeStep zs (some v) = zs.map (fun x => if x = v then 0 else x)
              by simp [excludeStep, hv, hm]), List.map_map]
          apply List.map_congr_left
          intro x hx
          by_cases hxv : x = v
          · subst hxv
            simp [Function.comp_apply, List.mem_cons, hv]
          · simp [Function.comp_apply, List.mem_cons, hxv]
        · rw [(show excludeStep zs (some v) = zs by simp [excludeStep, hv, hm])]
          apply List.map_congr_left
          intro x hx
          have hxv : x ≠ v := fun he => hm (he ▸ hx)
          simp [List.mem_cons, hxv]

/-- The loop over the batch mapping only rewrites the atomic-numbers key. -/
theorem applyExclusions_eq_update (l : List (Option Int))
    (inputs : String → List Int) :
    applyExclusions l inputs
      = Function.update inputs propertiesZ (excludeAll l (inputs propertiesZ)) := by
  induction l generalizing inputs with
  | nil =>
    simp [applyExclusions, excludeAll, Function.update_eq_self]
  | cons a rest ih =>
    rw [(show applyExclusions (a :: rest) inputs
        = applyExclusions rest
            (Function.update inputs propertiesZ (excludeStep (inputs propertiesZ) a))
        from rfl), ih, Function.update_same, Function.update_idem]
    rfl

/-! ## Lemmas about the archive-index loop -/

/-- Every existing archive index is bounded by `maxArchive`. -/
theorem mem_le_maxArchive : ∀ {l : List Nat} {a : Nat}, a ∈ l → a ≤ maxArchive l := by
  intro l
  induction l with
  | nil => intro a h; cases h
  | cons b t ih =>
    intro a h
    rcases List.mem_cons.mp h with rfl | h'
    · show a ≤ max a (maxArchive t)
      exact Nat.le_max_left _ _
    · show a ≤ max b (maxArchive t)
      exact Nat.le_trans (ih h') (Nat.le_max_right _ _)

/-- Loop invariant of the fuelled search: when some free index lies within
reach of the fuel, the loop returns the first free index at or after `n`. -/
theorem nextFreeAux_spec (archives : List Nat) :
    ∀ fuel n, (∃ m, n ≤ m ∧ m < n + fuel ∧ m ∉ archives) →
      nextFreeAux archives fuel n ∉ archives
      ∧ n ≤ nextFreeAux archives fuel n
      ∧ ∀ j, n ≤ j → j < nextFreeAux archives fuel n → j ∈ archives := by
  intro fuel
  induction fuel with
  | zero =>
    intro n hex
    obtain ⟨m, h1, h2, _⟩ := hex
    exact absurd h2 (by omega)
  | succ fuel ih =>
    intro n hex
    obtain ⟨m, h1, h2, h3⟩ := hex
    by_cases hn : n ∈ archives
    · have hmn : m ≠ n := fun he => h3 (he ▸ hn)
      have hrec := ih (n + 1) ⟨m, by omega, by omega, h3⟩
      rw [(show nextFreeAux archives (fuel + 1) n
          = if n ∈ archives then nextFreeAux archives fuel (n + 1) else n from rfl),
        if_pos hn]
      obtain ⟨ha, hb, hc⟩ := hrec
      refine ⟨ha, by omega, ?_⟩
      intro j hj1 hj2
      by_cases hje : j = n
      · exact hje ▸ hn
      · exact hc j (by omega) hj2
    · rw [(show nextFreeAux archives (fuel + 1) n
          = if n ∈ archives then nextFreeAux archives fuel (n + 1) else n from rfl),
        if_neg hn]
      exact ⟨hn, Nat.le_refl n, fun j hj1 hj2 => by omega⟩

/-- The chosen archive index is the smallest positive index not in use. -/
theorem nextFree_spec (archives : List Nat) :
    nextFree archives ∉ archives
    ∧ 1 ≤ nextFree archives
    ∧ ∀ j, 1 ≤ j → j < nextFree archives → j ∈ archives := by
  have hex : ∃ m, 1 ≤ m ∧ m < 1 + (maxArchive archives + 1) ∧ m ∉ archives := by
    refine ⟨maxArchive archives + 1, by omega, by omega, fun hmem => ?_⟩
    have hle := mem_le_maxArchive hmem
    omega
  exact nextFreeAux_spec archives (maxArchive archives + 1) 1 hex

/-! ## Claim theorems -/

/-- C1: a merged configuration with `run.data_dir` missing, or lacking a
`data` or a `model` section, makes the train entry point return early without
raising and without any filesystem side effect: the working directory comes
back unchanged and no configuration is handed to the rest of the routine. -/
theorem trainGate_incomplete_early_return (cfg : RunConfig) (wd : WorkDir)
    (h : cfg.dataDirMissing = true ∨ cfg.hasModel = false ∨ cfg.hasData = false) :
    trainGate cfg wd = (wd, none) := by
  rcases h with h | h | h
  · simp [trainGate, h]
  · by_cases hd : cfg.dataDirMissing = true
    · simp [trainGate, hd]
    · simp [trainGate, hd, h]
  · by_cases hd : cfg.dataDirMissing = true
    · simp [trainGate, hd]
    · simp [trainGate, hd, h]

/-- Witness for C1 at a concrete incomplete configuration. -/
theorem trainGate_incomplete_early_return_witness :
    (cfgIncomplete.dataDirMissing = true ∨ cfgIncomplete.hasModel = false
      ∨ cfgIncomplete.hasData = false)
    ∧ trainGate cfgIncomplete wdEmpty = (wdEmpty, none) :=
  ⟨Or.inr (Or.inl rfl),
   trainGate_incomplete_early_return cfgIncomplete wdEmpty (Or.inr (Or.inl rfl))⟩

/-- C2 counterexample: in the working directory `wdResume` the archives are
exactly `config.old.2.yaml`, so the highest existing archive index is 2 and
the claim requires the new archive to get index 3; the code instead fills the
gap and writes `config.old.1.yaml`.  Moreover `config.yaml` still holds the
previous configuration afterwards — the new run's configuration is never
written to it. -/
theorem trainGate_resume_archive_cex :
    ((trainGate cfgComplete wdResume).1.archives.map Prod.fst = [1, 2])
    ∧ (2 ∈ wdResume.archives.map Prod.fst)
    ∧ (∀ m ∈ wdResume.archives.map Prod.fst, m ≤ 2)
    ∧ (3 ∉ (trainGate cfgComplete wdResume).1.archives.map Prod.fst)
    ∧ ((trainGate cfgComplete wdResume).1.configYaml ≠ some cfgComplete)
    ∧ ((trainGate cfgComplete wdResume).1.configYaml = some oldCfg) := by
  decide

/-- C2 (amended): when `config.yaml` exists and the configuration is complete,
the entry point adds exactly one archive, whose index is the smallest positive
index not already used (equal to one greater than the highest existing index
exactly when the existing indices are contiguous from 1), holding the previous
`config.yaml` content; `config.yaml` itself is left unchanged, still holding
the previous run's configuration. -/
theorem trainGate_resume_archive_spec (cfg : RunConfig) (wd : WorkDir)
    (old : RunConfig) (h1 : cfg.dataDirMissing = false) (h2 : cfg.hasModel = true)
    (h3 : cfg.hasData = true) (h4 : wd.configYaml = some old) :
    (trainGate cfg wd).1.archives
        = (nextFree (wd.archives.map Prod.fst), old) :: wd.archives
    ∧ nextFree (wd.archives.map Prod.fst) ∉ wd.archives.map Prod.fst
    ∧ (∀ m, 1 ≤ m → m < nextFree (wd.archives.map Prod.fst) →
        m ∈ wd.archives.map Prod.fst)
    ∧ (∀ k, (∀ m, m ∈ wd.archives.map Prod.fst ↔ (1 ≤ m ∧ m ≤ k)) →
        nextFree (wd.archives.map Prod.fst) = k + 1)
    ∧ (trainGate cfg wd).1.configYaml = some old := by
  obtain ⟨hfree, hone, hall⟩ := nextFree_spec (wd.archives.map Prod.fst)
  refine ⟨?_, hfree, hall, ?_, ?_⟩
  · simp [trainGate, h1, h2, h3, h4]
  · intro k hk
    by_cases hgt : nextFree (wd.archives.map Prod.fst) ≥ k + 2
    · have hmem : k + 1 ∈ wd.archives.map Prod.fst := hall (k + 1) (by omega) (by omega)
      have hle := (hk (k + 1)).mp hmem
      omega
    · have hnot : ¬(1 ≤ nextFree (wd.archives.map Prod.fst)
          ∧ nextFree (wd.archives.map Prod.fst) ≤ k) :=
        fun hc => hfree ((hk _).mpr hc)
      omega
  · simp [trainGate, h1, h2, h3, h4]

/-- Witness for the amended C2 at the concrete resume directory. -/
theorem trainGate_resume_archive_spec_witness :
    (wdResume.configYaml = some oldCfg)
    ∧ ((trainGate cfgComplete wdResume).1.archives
          = (nextFree (wdResume.archives.map Prod.fst), oldCfg) :: wdResume.archives
      ∧ nextFree (wdResume.archives.map Prod.fst) ∉ wdResume.archives.map Prod.fst
      ∧ (∀ m, 1 ≤ m → m < nextFree (wdResume.archives.map Prod.fst) →
          m ∈ wdResume.archives.map Prod.fst)
      ∧ (∀ k, (∀ m, m ∈ wdResume.archives.map Prod.fst ↔ (1 ≤ m ∧ m ≤ k)) →
          nextFree (wdResume.archives.map Prod.fst) = k + 1)
      ∧ (trainGate cfgComplete wdResume).1.configYaml = some oldCfg) :=
  ⟨rfl, trainGate_resume_archive_spec cfgComplete wdResume oldCfg rfl rfl rfl rfl⟩

/-- C3 counterexample: the body of `train` contains no fit pass at all — the
`trainer.fit` call is commented out — and the model is never instantiated from
the configuration's model fragment. -/
theorem train_no_fit_cex :
    TrainEv.fitPass ∉ trainTrace
    ∧ TrainEv.instantiateModelFromConfig ∉ trainTrace := by
  decide

/-- C3 (amended): after the gate passes, the entry point performs no
model-fitting pass; instead it loads a pre-trained model from a fixed
filesystem path, before the first of the seven evaluation passes. -/
theorem train_eval_only_spec :
    TrainEv.fitPass ∉ trainTrace
    ∧ TrainEv.loadPretrainedModel pretrainedModelPath ∈ trainTrace
    ∧ evIdx (TrainEv.loadPretrainedModel pretrainedModelPath)
        < evIdx (TrainEv.testPass splitPath100)
    ∧ trainTrace.countP
        (fun x => match x with | TrainEv.testPass _ => true | _ => false) = 7 := by
  decide

/-- C4: for a present exclusion list, `forward` returns the mapping in which
the atomic-numbers tensor has exactly the entries equal to some truthy
excluded value replaced by zero, while every other entry of that tensor and
every other tensor of the mapping is untouched. -/
theorem exclusion_forward_spec (t : ExclusionTransformer) (l : List (Option Int))
    (inputs : String → List Int) (h : t.excluded_atoms = some l) :
    ∃ out, t.forward inputs = Except.ok out
      ∧ out propertiesZ
          = (inputs propertiesZ).map (fun x => if some x ∈ l ∧ x ≠ 0 then 0 else x)
      ∧ ∀ k, k ≠ propertiesZ → out k = inputs k := by
  refine ⟨applyExclusions l inputs, ?_, ?_, ?_⟩
  · simp [ExclusionTransformer.forward, h]
  · rw [applyExclusions_eq_update, Function.update_same, excludeAll_eq_map]
  · intro k hk
    rw [applyExclusions_eq_update, Function.update_noteq hk]

/-- Witness for C4: atomic numbers `[7, 6, 7, 1]` with excluded list `[7]`
give `[0, 6, 0, 1]`, and the other tensor of the batch is unchanged. -/
theorem exclusion_forward_spec_witness :
    ∃ out, ExclusionTransformer.forward ⟨some [some 7]⟩ exampleBatch = Except.ok out
      ∧ out propertiesZ = [0, 6, 0, 1]
      ∧ out ("energy") = [11, 12] := by
  obtain ⟨out, h1, h2, h3⟩ :=
    exclusion_forward_spec ⟨some [some 7]⟩ [some 7] exampleBatch rfl
  refine ⟨out, h1, ?_, ?_⟩
  · rw [h2]; decide
  · rw [h3 ("energy") (by decide)]; decide

/-- C5: falsy entries of the exclusion list (`0` or `None`) are silently
skipped without raising; a list consisting only of falsy entries leaves the
entire batch, atomic-numbers tensor included, unmodified. -/
theorem exclusion_falsy_skip (t : ExclusionTransformer) (l : List (Option Int))
    (inputs : String → List Int) (h : t.excluded_atoms = some l)
    (hf : ∀ a ∈ l, a = none ∨ a = some 0) :
    t.forward inputs = Except.ok inputs := by
  have hz : excludeAll l (inputs propertiesZ) = inputs propertiesZ := by
    rw [excludeAll_eq_map]
    have hpt : ∀ x ∈ inputs propertiesZ,
        (if some x ∈ l ∧ x ≠ 0 then (0 : Int) else x) = x := by
      intro x hx
      rw [if_neg]
      rintro ⟨hmem, hx0⟩
      rcases hf (some x) hmem with h1 | h1
      · exact Option.some_ne_none x h1
      · exact hx0 (Option.some.inj h1)
    rw [List.map_congr_left hpt, List.map_id']
  simp [ExclusionTransformer.forward, h, applyExclusions_eq_update, hz,
    Function.update_eq_self]

/-- Witness for C5 at the excluded list `[0, None]`. -/
theorem exclusion_falsy_skip_witness :
    (∀ a ∈ ([some 0, none] : List (Option Int)), a = none ∨ a = some 0)
    ∧ ExclusionTransformer.forward ⟨some [some 0, none]⟩ exampleBatch
        = Except.ok exampleBatch :=
  ⟨by decide,
   exclusion_falsy_skip ⟨some [some 0, none]⟩ [some 0, none] exampleBatch rfl
     (by decide)⟩

/-- C6: on resume with no explicit checkpoint path, the resolved checkpoint
path is `checkpoints/last.ckpt` exactly when that file exists and stays unset
otherwise; an explicitly supplied checkpoint path is never overwritten. -/
theorem trainGate_ckpt_resolution (cfg : RunConfig) (wd : WorkDir) (old : RunConfig)
    (h1 : cfg.dataDirMissing = false) (h2 : cfg.hasModel = true)
    (h3 : cfg.hasData = true) (h4 : wd.configYaml = some old) :
    (cfg.ckptPath = none →
      ∃ cfg', (trainGate cfg wd).2 = some cfg'
        ∧ cfg'.ckptPath
            = (if wd.lastCkptExists then some ("checkpoints/last.ckpt") else none)
        ∧ cfg'.hasData = cfg.hasData
        ∧ cfg'.hasModel = cfg.hasModel
        ∧ cfg'.dataDirMissing = cfg.dataDirMissing)
    ∧ (∀ p, cfg.ckptPath = some p → (trainGate cfg wd).2 = some cfg) := by
  constructor
  · intro hc
    by_cases hl : wd.lastCkptExists = true
    · exact ⟨{ cfg with ckptPath := some ("checkpoints/last.ckpt") },
        by simp [trainGate, h1, h2, h3, h4, hc, hl],
        by simp [hl], rfl, rfl, rfl⟩
    · exact ⟨cfg,
        by simp [trainGate, h1, h2, h3, h4, hc, hl],
        by simp [hc, hl], rfl, rfl, rfl⟩
  · intro p hp
    simp [trainGate, h1, h2, h3, h4, hp]

/-- Witness for C6: with no explicit checkpoint path and an existing
`checkpoints/last.ckpt`, the resolved path is that file. -/
theorem trainGate_ckpt_resolution_witness :
    (cfgComplete.ckptPath = none)
    ∧ ∃ cfg', (trainGate cfgComplete wdResumeCkpt).2 = some cfg'
        ∧ cfg'.ckptPath
            = (if wdResumeCkpt.lastCkptExists then some ("checkpoints/last.ckpt")
               else none)
        ∧ cfg'.hasData = cfgComplete.hasData
        ∧ cfg'.hasModel = cfgComplete.hasModel
        ∧ cfg'.dataDirMissing = cfgComplete.dataDirMissing :=
  ⟨rfl,
   (trainGate_ckpt_resolution cfgComplete wdResumeCkpt oldCfg rfl rfl rfl rfl).1 rfl⟩

/-- C7: in the evaluation sweep each partition's split-file assignment comes
first, then the train/test/validation count assignments, then its evaluation
call; each partition's evaluation call precedes the next partition's split
reassignment, every partition is evaluated exactly once, and no evaluation
call ever precedes the split reassignment of its own partition. -/
theorem sweep_mutation_order :
    (∀ p ∈ splitPaths,
        evIdx (TrainEv.setSplitFile p) < evIdx (TrainEv.setNumTrain p)
        ∧ evIdx (TrainEv.setSplitFile p) < evIdx (TrainEv.setNumTest p)
        ∧ evIdx (TrainEv.setSplitFile p) < evIdx (TrainEv.setNumVal p)
        ∧ evIdx (TrainEv.setNumTrain p) < evIdx (TrainEv.testPass p)
        ∧ evIdx (TrainEv.setNumTest p) < evIdx (TrainEv.testPass p)
        ∧ evIdx (TrainEv.setNumVal p) < evIdx (TrainEv.testPass p)
        ∧ evIdx (TrainEv.testPass p) < trainTrace.length
        ∧ trainTrace.countP (fun x => decide (x = TrainEv.testPass p)) = 1)
    ∧ evIdx (TrainEv.testPass splitPath100) < evIdx (TrainEv.setSplitFile splitPath80)
    ∧ evIdx (TrainEv.testPass splitPath80) < evIdx (TrainEv.setSplitFile splitPath60)
    ∧ evIdx (TrainEv.testPass splitPath60) < evIdx (TrainEv.setSplitFile splitPath40)
    ∧ evIdx (TrainEv.testPass splitPath40) < evIdx (TrainEv.setSplitFile splitPath20)
    ∧ evIdx (TrainEv.testPass splitPath20) < evIdx (TrainEv.setSplitFile splitPath0)
    ∧ evIdx (TrainEv.testPass splitPath0) < evIdx (TrainEv.setSplitFile splitPathOnlyN) := by
  decide

/-- C8: the best-model export writes both the task snapshot at the configured
model path with the `.task` suffix and the deployment export at the model
path, in that order, whenever the checkpoint resolves and loads; when the
checkpoint path cannot be resolved, or loading it fails, the run aborts
before writing either artifact. -/
theorem export_best_model_spec (bestPath : Option String) (loadOk : String → Bool)
    (modelPath : String) :
    (bestPath = none → exportBestModel bestPath loadOk modelPath = ExportResult.aborted)
    ∧ (∀ bp, bestPath = some bp → loadOk bp = false →
        exportBestModel bestPath loadOk modelPath = ExportResult.aborted)
    ∧ (∀ bp, bestPath = some bp → loadOk bp = true →
        exportBestModel bestPath loadOk modelPath
          = ExportResult.written [modelPath ++ ".task", modelPath]) := by
  refine ⟨?_, ?_, ?_⟩
  · intro h; subst h; rfl
  · intro bp hb hl; subst hb; simp [exportBestModel, hl]
  · intro bp hb hl; subst hb; simp [exportBestModel, hl]

/-- Witness for C8 at concrete paths. -/
theorem export_best_model_spec_witness :
    exportBestModel (some ("ckpt")) (fun _ => true) ("best")
        = ExportResult.written [("best") ++ ".task", ("best")]
    ∧ exportBestModel none (fun _ => true) ("best") = ExportResult.aborted :=
  ⟨(export_best_model_spec (some ("ckpt")) (fun _ => true) ("best")).2.2 ("ckpt") rfl rfl,
   (export_best_model_spec none (fun _ => true) ("best")).1 rfl⟩

/-- C9: an `ExclusionTransformer` built with the default argument
(`excluded_atoms = None`) raises on every call to `forward` — iteration over
`None` — instead of acting as a no-op. -/
theorem exclusion_default_none_errors (inputs : String → List Int) :
    ExclusionTransformer.forward {} inputs
        = Except.error ("TypeError: argument of type NoneType is not iterable")
    ∧ ∀ m, ExclusionTransformer.forward {} inputs ≠ Except.ok m := by
  constructor
  · rfl
  · intro m hm
    simp [ExclusionTransformer.forward] at hm

/-- C10: the exclusion transform is idempotent — running `forward` on its own
output changes nothing, for every transformer (with or without a list) and
every input batch. -/
theorem exclusion_forward_idempotent (t : ExclusionTransformer)
    (inputs : String → List Int) :
    (t.forward inputs).bind t.forward = t.forward inputs := by
  cases ht : t.excluded_atoms with
  | none => simp [ExclusionTransformer.forward, ht, Except.bind]
  | some l =>
    have key : applyExclusions l (applyExclusions l inputs) = applyExclusions l inputs := by
      simp only [applyExclusions_eq_update]
      rw [Function.update_same, Function.update_idem]
      have hzz : excludeAll l (excludeAll l (inputs propertiesZ))
          = excludeAll l (inputs propertiesZ) := by
        rw [excludeAll_eq_map, excludeAll_eq_map, List.map_map]
        apply List.map_congr_left
        intro x hx
        by_cases hc : some x ∈ l ∧ x ≠ 0
        · simp [Function.comp_apply, hc]
        · simp [Function.comp_apply, hc]
      rw [hzz]
    simp [ExclusionTransformer.forward, ht, Except.bind, key]
